import Mathlib

/-!
Verification of the admission & monitoring queue of `app.py`
(torrent-downloader-api).

The Python program keeps three containers of global state --
`queue : deque` (pending magnet identifiers), `active_downloads : dict`
(magnet -> metadata of a running job), `completed_files : list`
(records `{magnet, filename, size, completed_at}`) -- and mutates them
in the FastAPI handlers `add_torrent`, `cancel`, `download_file`, in the
dispatch loop `download_worker`, and in the per-job supervisor coroutine
`handle_download`.  Under asyncio, the code between two `await`
suspension points runs atomically; the step relation below has one
constructor per such atomic block.
-/

namespace TorrentApp

/-- A completed-file record, mirroring the dicts appended to
`completed_files` (app.py lines 170-175 and 183-188):
`{"magnet": ..., "filename": ..., "size": ..., "completed_at": ...}`. -/
structure CompEntry where
  magnet : String
  filename : String
  size : Nat
  completed_at : String
  deriving Repr, DecidableEq

/-- The in-memory global state of app.py: `queue` (pending magnets, FIFO),
the key set of `active_downloads`, and `completed_files`. -/
structure Sys where
  queue : List String
  active : List String
  completed : List CompEntry
  deriving Repr, DecidableEq

/-- The initial state: all three containers start empty (app.py lines 29-31). -/
def initSys : Sys := ⟨[], [], []⟩

/-- Python dict-key insertion `active_downloads[m] = ...`: assigning an
existing key leaves the key set unchanged, a fresh key is appended. -/
def dictInsert (m : String) (l : List String) : List String :=
  if m ∈ l then l else l ++ [m]

/-- The magnets occurring in the completed list
(`any(c["magnet"] == magnet for c in completed_files)`). -/
def completedMagnets (s : Sys) : List String :=
  s.completed.map (·.magnet)

/-- Python's `str.strip()` (app.py line 241): drop whitespace characters
from both ends.  Whitespace is modelled by `Char.isWhitespace`
(space, tab, newline, carriage return). -/
def pyStrip (s : String) : String :=
  ⟨((s.data.dropWhile Char.isWhitespace).reverse.dropWhile
      Char.isWhitespace).reverse⟩

/-- The dedup check of `add_torrent` (app.py line 245):
`magnet in active_downloads or magnet in queue or any(c["magnet"] == magnet ...)`. -/
def isTracked (m : String) (s : Sys) : Bool :=
  m ∈ s.active || m ∈ s.queue || m ∈ completedMagnets s

/-- Result of the `/add` endpoint.  `rejectedEmpty` is the
`HTTPException(400, "Empty magnet")`; `statusExists` is the JSON response
`{"status": "exists"}` (the spec's `duplicate` outcome); `queued n` is
`{"status": "queued", "queue_position": n}`. -/
inductive AddResult where
  | rejectedEmpty
  | statusExists
  | queued (pos : Nat)
  deriving Repr, DecidableEq

/-- The `/add` handler `add_torrent` (app.py lines 239-249): strip the
identifier, reject an empty one, return the duplicate outcome when it is
tracked in any container, otherwise append to the tail of the pending
queue and report `len(queue)` as the 1-based position. -/
def add_torrent (raw : String) (s : Sys) : AddResult × Sys :=
  if pyStrip raw = "" then (.rejectedEmpty, s)
  else if isTracked (pyStrip raw) s then (.statusExists, s)
  else (.queued (s.queue.length + 1),
    { s with queue := s.queue ++ [pyStrip raw] })

/-- Result of the `/cancel` endpoint.  `badRequest` is the
`HTTPException(400)` for a missing magnet; `statusCancelled` is
`{"status": "cancelled"}` (the Active branch, the spec's
`removed_from_active` outcome); the other two are the literal statuses
`removed_from_queue` and `not_found`. -/
inductive CancelResult where
  | badRequest
  | statusCancelled
  | removedFromQueue
  | notFound
  deriving Repr, DecidableEq

/-- The `/cancel` handler (app.py lines 289-323): reject a missing/empty
magnet; if active, cancel the task / stop the engine (side effects on
the engine only) and pop the record; else if pending, remove the first
occurrence from the queue (`queue.remove`); otherwise `not_found`.
The completed list is never consulted and never changed. -/
def cancel (raw : String) (s : Sys) : CancelResult × Sys :=
  if raw = "" then (.badRequest, s)
  else if raw ∈ s.active then
    (.statusCancelled, { s with active := s.active.erase raw })
  else if raw ∈ s.queue then
    (.removedFromQueue, { s with queue := s.queue.erase raw })
  else (.notFound, s)

/-- Resolved-path facts about one produced file name `f`, as the Python
code observes them after `path = (DOWNLOAD_DIR / f).resolve()`
(app.py lines 166-169): `path.exists()`, `DOWNLOAD_DIR in path.parents`
(the destination directory is a strict ancestor of the resolved path),
`path.parent == DOWNLOAD_DIR` (the resolved path is a direct child),
and `path.stat().st_size`. -/
structure FileInfo where
  name : String
  pexists : Bool
  dirInParents : Bool
  parentIsDir : Bool
  size : Nat
  deriving Repr, DecidableEq

/-- The completed-file record built for one file of a finished job
(app.py lines 170-175); the timestamp string is abstracted as `"utc"`. -/
def mkEntry (magnet : String) (f : FileInfo) : CompEntry :=
  ⟨magnet, f.name, f.size, "utc"⟩

/-- The file-enumeration loop of the finish branch (app.py lines 165-175).
For each file the guard is, with Python's operator precedence,
`(path.exists() and DOWNLOAD_DIR in path.parents) or path.parent == DOWNLOAD_DIR`;
a file passing the guard is recorded with `path.stat().st_size` -- but if
such a file does not exist, `stat` raises `FileNotFoundError`, the loop
aborts, and the records appended so far remain.  Returns the list of
appended records and whether the loop ran to completion (so that the
subsequent `stop_download` call is reached). -/
def collectFiles (magnet : String) : List FileInfo → List CompEntry × Bool
  | [] => ([], true)
  | f :: rest =>
    if (f.pexists && f.dirInParents) || f.parentIsDir then
      if f.pexists then
        let (es, ok) := collectFiles magnet rest
        (mkEntry magnet f :: es, ok)
      else ([], false)
    else collectFiles magnet rest

/-- The state change of the whole finish branch (app.py lines 161-199):
records are appended to `completed_files`, then (after `save_state`) the
magnet is popped from `active_downloads`; on the `stat` exception the
outer handler (lines 211-214) also pops the magnet, but the engine is
not stopped.  Returns the new state and whether `stop_download` was
attempted. -/
def finishJob (magnet : String) (fs : List FileInfo) (s : Sys) : Sys × Bool :=
  let (es, ok) := collectFiles magnet fs
  ({ s with completed := s.completed ++ es, active := s.active.erase magnet }, ok)

/-- One atomic asyncio block of the program, as a step relation on the
global state, parameterised by the configured `MAX_ACTIVE_DOWNLOADS`.
Each constructor names the code path it models. -/
inductive Step (maxA : Nat) : Sys → Sys → Prop
  /-- The `/add` handler (app.py lines 239-249). -/
  | submit (raw : String) (s : Sys) : Step maxA s (add_torrent raw s).2
  /-- One iteration of the admission loop in `download_worker`
  (app.py lines 78-84): requires capacity, pops the queue head,
  inserts the placeholder record into `active_downloads`. -/
  | dispatch (m : String) (rest : List String) (s : Sys)
      (hq : s.queue = m :: rest) (hlt : s.active.length < maxA) :
      Step maxA s { s with queue := rest, active := dictInsert m s.active }
  /-- `TorrentDownloader` construction failure (app.py lines 94-97):
  the record is popped, nothing is completed. -/
  | createFail (m : String) (s : Sys) :
      Step maxA s { s with active := s.active.erase m }
  /-- `start_download` failure (app.py lines 106-112): record popped. -/
  | startFail (m : String) (s : Sys) :
      Step maxA s { s with active := s.active.erase m }
  /-- The first half of the finish branch, up to the `await save_state()`
  at line 191: completion records (always carrying the job's own magnet,
  lines 170-175/183-188) are appended while the magnet is still active. -/
  | finishAppend (m : String) (es : List CompEntry) (s : Sys)
      (hm : m ∈ s.active) (hes : ∀ e ∈ es, e.magnet = m) :
      Step maxA s { s with completed := s.completed ++ es }
  /-- The second half of the finish branch (app.py line 193): the record
  is popped from `active_downloads`. -/
  | finishRemove (m : String) (s : Sys) :
      Step maxA s { s with active := s.active.erase m }
  /-- The stall auto-cancel (app.py lines 147-156): engine stopped
  best-effort, record popped, no completion record. -/
  | timeout (m : String) (s : Sys) :
      Step maxA s { s with active := s.active.erase m }
  /-- The `CancelledError` handler (app.py lines 203-210): record popped. -/
  | cancelledTask (m : String) (s : Sys) :
      Step maxA s { s with active := s.active.erase m }
  /-- The monitoring-loop exception handler (app.py lines 211-214). -/
  | monitorError (m : String) (s : Sys) :
      Step maxA s { s with active := s.active.erase m }
  /-- The `/cancel` handler (app.py lines 289-323). -/
  | cancelRoute (raw : String) (s : Sys) : Step maxA s (cancel raw s).2

/-- A state reachable from the empty initial state by atomic steps. -/
def Reachable (maxA : Nat) (s : Sys) : Prop :=
  Relation.ReflTransGen (Step maxA) initSys s

lemma add_torrent_active (raw : String) (s : Sys) :
    ((add_torrent raw s).2).active = s.active := by
  unfold add_torrent
  split
  · rfl
  · split <;> rfl

lemma add_torrent_completed (raw : String) (s : Sys) :
    ((add_torrent raw s).2).completed = s.completed := by
  unfold add_torrent
  split
  · rfl
  · split <;> rfl

lemma cancel_completed (raw : String) (s : Sys) :
    ((cancel raw s).2).completed = s.completed := by
  unfold cancel
  split
  · rfl
  · split
    · rfl
    · split <;> rfl

lemma cancel_active_cases (raw : String) (s : Sys) :
    ((cancel raw s).2).active = s.active ∨
    ((cancel raw s).2).active = s.active.erase raw := by
  unfold cancel
  split
  · exact Or.inl rfl
  · split
    · exact Or.inr rfl
    · split
      · exact Or.inl rfl
      · exact Or.inl rfl

lemma dictInsert_length (m : String) (l : List String) :
    (dictInsert m l).length ≤ l.length + 1 := by
  unfold dictInsert
  split
  · exact Nat.le_succ _
  · simp

lemma erase_length_le (m : String) (l : List String) :
    (l.erase m).length ≤ l.length :=
  (List.erase_sublist m l).length_le

lemma step_active_length_le {maxA : Nat} {a b : Sys} (h : Step maxA a b)
    (ha : a.active.length ≤ maxA) : b.active.length ≤ maxA := by
  cases h with
  | submit raw => rw [add_torrent_active]; exact ha
  | dispatch m rest _t hq hlt => exact le_trans (dictInsert_length m a.active) hlt
  | createFail m => exact le_trans (erase_length_le m a.active) ha
  | startFail m => exact le_trans (erase_length_le m a.active) ha
  | finishAppend m es hm hes => exact ha
  | finishRemove m => exact le_trans (erase_length_le m a.active) ha
  | timeout m => exact le_trans (erase_length_le m a.active) ha
  | cancelledTask m => exact le_trans (erase_length_le m a.active) ha
  | monitorError m => exact le_trans (erase_length_le m a.active) ha
  | cancelRoute raw =>
    rcases cancel_active_cases raw a with he | he
    · rw [he]; exact ha
    · rw [he]; exact le_trans (erase_length_le raw a.active) ha

/-- C1: along every run, each step keeps `len(active_downloads)` at or
below `MAX_ACTIVE_DOWNLOADS`: admission (`download_worker`) only fires
under the capacity guard, and every other transition leaves the active
set unchanged or removes from it. -/
theorem c1_active_bounded (maxA : Nat) (s : Sys) (h : Reachable maxA s) :
    s.active.length ≤ maxA := by
  induction h with
  | refl => simp [initSys]
  | tail _ hstep ih => exact step_active_length_le hstep ih

/-- Closed instance of C1 at the default configuration `maxA = 2`. -/
theorem c1_active_bounded_witness :
    Reachable 2 initSys ∧ initSys.active.length ≤ 2 :=
  ⟨Relation.ReflTransGen.refl,
   c1_active_bounded 2 initSys Relation.ReflTransGen.refl⟩

/-- The inductive invariant the program maintains between the three
containers: the pending queue and the active key set are duplicate-free,
and a pending identifier is in neither `active_downloads` nor
`completed_files`. -/
def Inv (s : Sys) : Prop :=
  s.queue.Nodup ∧ s.active.Nodup ∧
  (∀ m ∈ s.queue, m ∉ s.active) ∧ (∀ m ∈ s.queue, m ∉ completedMagnets s)

lemma inv_erase_active (s : Sys) (m : String) (h : Inv s) :
    Inv { s with active := s.active.erase m } := by
  obtain ⟨hq, ha, hqa, hqc⟩ := h
  refine ⟨hq, (List.erase_sublist m s.active).nodup ha, ?_, hqc⟩
  intro q hqmem hqe
  exact hqa q hqmem ((List.erase_sublist m s.active).subset hqe)

lemma step_inv {maxA : Nat} {a b : Sys} (h : Step maxA a b) (ha : Inv a) :
    Inv b := by
  obtain ⟨hq, hac, hqa, hqc⟩ := ha
  cases h with
  | submit raw =>
    unfold add_torrent
    split
    · exact ⟨hq, hac, hqa, hqc⟩
    · split
      · exact ⟨hq, hac, hqa, hqc⟩
      · rename_i hne htr
        have hnt : (pyStrip raw ∉ a.active ∧ pyStrip raw ∉ a.queue) ∧
            pyStrip raw ∉ completedMagnets a := by
          simpa [isTracked] using htr
        obtain ⟨⟨hna, hnq⟩, hnc⟩ := hnt
        refine ⟨?_, hac, ?_, ?_⟩
        · simpa [List.nodup_append] using ⟨hq, fun hmem => hnq hmem⟩
        · intro q hqmem
          rcases List.mem_append.1 hqmem with hq1 | hq2
          · exact hqa q hq1
          · simp only [List.mem_singleton] at hq2
            subst hq2; exact hna
        · intro q hqmem
          rcases List.mem_append.1 hqmem with hq1 | hq2
          · exact hqc q hq1
          · simp only [List.mem_singleton] at hq2
            subst hq2; exact hnc
  | dispatch m rest _t hqe hlt =>
    rw [hqe] at hq hqa hqc
    have hmrest : m ∉ rest := (List.nodup_cons.1 hq).1
    have hrest : rest.Nodup := (List.nodup_cons.1 hq).2
    have hma : m ∉ a.active := hqa m (List.mem_cons_self m rest)
    refine ⟨hrest, ?_, ?_, ?_⟩
    · simp only [dictInsert, if_neg hma]
      simpa [List.nodup_append] using ⟨hac, hma⟩
    · intro q hqmem
      simp only [dictInsert, if_neg hma, List.mem_append, List.mem_singleton]
      rintro (hqact | hqm)
      · exact hqa q (List.mem_cons_of_mem m hqmem) hqact
      · subst hqm; exact hmrest hqmem
    · intro q hqmem
      exact hqc q (List.mem_cons_of_mem m hqmem)
  | createFail m => exact inv_erase_active a m ⟨hq, hac, hqa, hqc⟩
  | startFail m => exact inv_erase_active a m ⟨hq, hac, hqa, hqc⟩
  | finishAppend m es _t hm hes =>
    refine ⟨hq, hac, hqa, ?_⟩
    intro q hqmem
    simp only [completedMagnets, List.map_append, List.mem_append]
    rintro (hold | hnew)
    · exact hqc q hqmem hold
    · rcases List.mem_map.1 hnew with ⟨e, hemem, heq⟩
      have : q = m := by rw [← heq, hes e hemem]
      subst this
      exact hqa q hqmem hm
  | finishRemove m => exact inv_erase_active a m ⟨hq, hac, hqa, hqc⟩
  | timeout m => exact inv_erase_active a m ⟨hq, hac, hqa, hqc⟩
  | cancelledTask m => exact inv_erase_active a m ⟨hq, hac, hqa, hqc⟩
  | monitorError m => exact inv_erase_active a m ⟨hq, hac, hqa, hqc⟩
  | cancelRoute raw =>
    unfold cancel
    split
    · exact ⟨hq, hac, hqa, hqc⟩
    · split
      · exact inv_erase_active a raw ⟨hq, hac, hqa, hqc⟩
      · split
        · refine ⟨(List.erase_sublist raw a.queue).nodup hq, hac, ?_, ?_⟩
          · intro q hqmem
            exact hqa q ((List.erase_sublist raw a.queue).subset hqmem)
          · intro q hqmem
            exact hqc q ((List.erase_sublist raw a.queue).subset hqmem)
        · exact ⟨hq, hac, hqa, hqc⟩

lemma inv_reachable (maxA : Nat) (s : Sys) (h : Reachable maxA s) : Inv s := by
  induction h with
  | refl => exact ⟨List.nodup_nil, List.nodup_nil, by simp [initSys], by simp [initSys]⟩
  | tail _ hstep ih => exact step_inv hstep ih

/-- A new overlap between Active and Completed can only be created by the
record-append phase of the finish branch: any step that adds a completed
magnet leaves the active set untouched and has that magnet still active. -/
lemma step_new_completed {maxA : Nat} {a b : Sys} (h : Step maxA a b) :
    ∀ m, m ∈ completedMagnets b → m ∉ completedMagnets a →
      m ∈ a.active ∧ b.active = a.active := by
  cases h with
  | submit raw =>
    intro m hb hna
    exact absurd (by simpa [completedMagnets, add_torrent_completed] using hb) hna
  | dispatch m rest _t hqe hlt =>
    intro q hb hna
    exact absurd (by simpa [completedMagnets] using hb) hna
  | createFail m => intro q hb hna; exact absurd hb hna
  | startFail m => intro q hb hna; exact absurd hb hna
  | finishAppend m es _t hm hes =>
    intro q hb hna
    refine ⟨?_, rfl⟩
    simp only [completedMagnets, List.map_append, List.mem_append] at hb
    rcases hb with hold | hnew
    · exact absurd hold hna
    · rcases List.mem_map.1 hnew with ⟨e, hemem, heq⟩
      have : q = m := by rw [← heq, hes e hemem]
      subst this; exact hm
  | finishRemove m => intro q hb hna; exact absurd hb hna
  | timeout m => intro q hb hna; exact absurd hb hna
  | cancelledTask m => intro q hb hna; exact absurd hb hna
  | monitorError m => intro q hb hna; exact absurd hb hna
  | cancelRoute raw =>
    intro m hb hna
    exact absurd (by simpa [completedMagnets, cancel_completed] using hb) hna

/-- C2 (amended): in every reachable state a pending identifier is in
neither Active nor Completed; and an Active/Completed overlap can arise
only from the append phase of the finish branch, while the identifier is
still active (lines 161-191, before the pop at line 193). -/
theorem c2_amended_mutual_exclusion (maxA : Nat) (s : Sys)
    (h : Reachable maxA s) :
    (∀ m ∈ s.queue, m ∉ s.active) ∧ (∀ m ∈ s.queue, m ∉ completedMagnets s) ∧
    (∀ s', Step maxA s s' → ∀ m, m ∈ completedMagnets s' →
      m ∉ completedMagnets s → m ∈ s.active ∧ s'.active = s.active) := by
  obtain ⟨_, _, hqa, hqc⟩ := inv_reachable maxA s h
  exact ⟨hqa, hqc, fun s' hstep => step_new_completed hstep⟩

/-- Closed instance of C2's amended statement at the initial state. -/
theorem c2_amended_mutual_exclusion_witness :
    Reachable 2 initSys ∧
    ((∀ m ∈ initSys.queue, m ∉ initSys.active) ∧
     (∀ m ∈ initSys.queue, m ∉ completedMagnets initSys) ∧
     (∀ s', Step 2 initSys s' → ∀ m, m ∈ completedMagnets s' →
       m ∉ completedMagnets initSys → m ∈ initSys.active ∧
       s'.active = initSys.active)) :=
  ⟨Relation.ReflTransGen.refl,
   c2_amended_mutual_exclusion 2 initSys Relation.ReflTransGen.refl⟩

/-- C2 as stated is false: a state with the identifier simultaneously in
Active and Completed is reachable -- it is the program state during the
`await save_state()` at app.py line 191, after the completion record is
appended (line 170) and before the active record is popped (line 193). -/
theorem c2_counterexample :
    Reachable 2 ⟨[], ["m"], [⟨"m", "a.iso", 100, "utc"⟩]⟩ ∧
    "m" ∈ (Sys.active ⟨[], ["m"], [⟨"m", "a.iso", 100, "utc"⟩]⟩) ∧
    "m" ∈ completedMagnets ⟨[], ["m"], [⟨"m", "a.iso", 100, "utc"⟩]⟩ := by
  refine ⟨?_, by simp, by simp [completedMagnets]⟩
  have h1 : Step 2 initSys ⟨["m"], [], []⟩ := by
    have hstep : Step 2 initSys (add_torrent "m" initSys).2 :=
      Step.submit "m" initSys
    have he : (add_torrent "m" initSys).2 = ⟨["m"], [], []⟩ := by decide
    rwa [he] at hstep
  have h2 : Step 2 ⟨["m"], [], []⟩ ⟨[], ["m"], []⟩ := by
    have hstep : Step 2 ⟨["m"], [], []⟩ ⟨[], dictInsert "m" [], []⟩ :=
      Step.dispatch "m" [] ⟨["m"], [], []⟩ rfl (by decide)
    have he : dictInsert "m" ([] : List String) = ["m"] := by decide
    rwa [he] at hstep
  have h3 : Step 2 ⟨[], ["m"], []⟩ ⟨[], ["m"], [⟨"m", "a.iso", 100, "utc"⟩]⟩ := by
    have hstep : Step 2 ⟨[], ["m"], []⟩
        ⟨[], ["m"], [] ++ [⟨"m", "a.iso", 100, "utc"⟩]⟩ :=
      Step.finishAppend "m" [⟨"m", "a.iso", 100, "utc"⟩]
        ⟨[], ["m"], []⟩ (by simp) (by simp)
    simpa using hstep
  exact ((Relation.ReflTransGen.refl.tail h1).tail h2).tail h3

lemma isTracked_true_of_mem {m : String} {s : Sys}
    (h : m ∈ s.active ∨ m ∈ s.queue ∨ m ∈ completedMagnets s) :
    isTracked m s = true := by
  simp only [isTracked, Bool.or_eq_true, decide_eq_true_eq]
  tauto

lemma isTracked_false_of_not_mem {m : String} {s : Sys}
    (h : ¬(m ∈ s.active ∨ m ∈ s.queue ∨ m ∈ completedMagnets s)) :
    isTracked m s = false := by
  push_neg at h
  simp only [isTracked, Bool.or_eq_false_iff, decide_eq_false_iff_not]
  exact ⟨⟨h.1, h.2.1⟩, h.2.2⟩

/-- C4: `add_torrent` rejects an identifier that strips to empty with the
400 error and no state change; returns the duplicate outcome
(`{"status": "exists"}`) with no state change when the stripped
identifier is in Pending, Active or Completed; otherwise appends it to
the tail of the pending queue and reports the 1-based position
`len(queue)` of the appended element -- and submitting the same
identifier again right away yields the duplicate outcome with all three
containers unchanged. -/
theorem c4_submit_contract (raw : String) (s : Sys) :
    (pyStrip raw = "" → add_torrent raw s = (.rejectedEmpty, s)) ∧
    (pyStrip raw ≠ "" →
      (pyStrip raw ∈ s.active ∨ pyStrip raw ∈ s.queue ∨
        pyStrip raw ∈ completedMagnets s) →
      add_torrent raw s = (.statusExists, s)) ∧
    (pyStrip raw ≠ "" →
      ¬(pyStrip raw ∈ s.active ∨ pyStrip raw ∈ s.queue ∨
        pyStrip raw ∈ completedMagnets s) →
      add_torrent raw s = (.queued (s.queue.length + 1),
        { s with queue := s.queue ++ [pyStrip raw] }) ∧
      (add_torrent raw s).2.queue.length = s.queue.length + 1 ∧
      (add_torrent raw s).2.queue.getLast? = some (pyStrip raw) ∧
      add_torrent raw (add_torrent raw s).2 =
        (.statusExists, (add_torrent raw s).2)) := by
  refine ⟨?_, ?_, ?_⟩
  · intro h
    simp [add_torrent, h]
  · intro hne hmem
    simp [add_torrent, hne, isTracked_true_of_mem hmem]
  · intro hne hmem
    have hfirst : add_torrent raw s = (.queued (s.queue.length + 1),
        { s with queue := s.queue ++ [pyStrip raw] }) := by
      simp [add_torrent, hne, isTracked_false_of_not_mem hmem]
    refine ⟨hfirst, ?_, ?_, ?_⟩
    · rw [hfirst]; simp
    · rw [hfirst]; simp
    · rw [hfirst]
      have htr : isTracked (pyStrip raw)
          { s with queue := s.queue ++ [pyStrip raw] } = true := by
        apply isTracked_true_of_mem
        right; left; simp
      simp [add_torrent, hne, htr]

/-- Closed instance of C4: a fresh submission is queued at position 1
and the immediate resubmission returns the duplicate outcome. -/
theorem c4_submit_contract_witness :
    add_torrent "m1" initSys = (.queued 1, ⟨["m1"], [], []⟩) ∧
    add_torrent "m1" (add_torrent "m1" initSys).2 =
      (.statusExists, (add_torrent "m1" initSys).2) := by
  have h := (c4_submit_contract "m1" initSys).2.2 (by decide) (by decide)
  refine ⟨?_, h.2.2.2⟩
  rw [h.1]; decide

/-- C10: submission normalizes by stripping surrounding whitespace before
validation, dedup and enqueueing -- a whitespace-only identifier strips
to empty and is rejected, two submissions differing only in surrounding
whitespace collide (the second returns the duplicate outcome), and the
queue stores the stripped form. -/
theorem c10_strip_normalization :
    (∀ raw : String, raw.data.all Char.isWhitespace → pyStrip raw = "") ∧
    (∀ raw s, pyStrip raw = "" → add_torrent raw s = (.rejectedEmpty, s)) ∧
    (∀ r1 r2 (s : Sys), pyStrip r1 = pyStrip r2 → pyStrip r1 ≠ "" →
      ¬(pyStrip r1 ∈ s.active ∨ pyStrip r1 ∈ s.queue ∨
        pyStrip r1 ∈ completedMagnets s) →
      (add_torrent r1 s).2.queue = s.queue ++ [pyStrip r1] ∧
      add_torrent r2 (add_torrent r1 s).2 =
        (.statusExists, (add_torrent r1 s).2)) := by
  refine ⟨?_, ?_, ?_⟩
  · intro raw hws
    have : raw.data.dropWhile Char.isWhitespace = [] :=
      List.dropWhile_eq_nil_iff.2 (by simpa [List.all_eq_true] using hws)
    simp [pyStrip, this]
  · intro raw s h
    simp [add_torrent, h]
  · intro r1 r2 s heq hne hmem
    have hfirst : add_torrent r1 s = (.queued (s.queue.length + 1),
        { s with queue := s.queue ++ [pyStrip r1] }) := by
      simp [add_torrent, hne, isTracked_false_of_not_mem hmem]
    refine ⟨by rw [hfirst], ?_⟩
    rw [hfirst]
    have htr : isTracked (pyStrip r1)
        { s with queue := s.queue ++ [pyStrip r1] } = true := by
      apply isTracked_true_of_mem
      right; left; simp
    simp [add_torrent, ← heq, hne, htr]

/-- Closed instance of C10: `" m1 "` and `"m1"` collide; the stored
identifier is the stripped `"m1"`; `" "` is rejected as empty. -/
theorem c10_strip_normalization_witness :
    pyStrip " " = "" ∧
    add_torrent " " initSys = (.rejectedEmpty, initSys) ∧
    (add_torrent " m1 " initSys).2.queue = [pyStrip " m1 "] ∧
    pyStrip " m1 " = "m1" ∧
    add_torrent "m1" (add_torrent " m1 " initSys).2 =
      (.statusExists, (add_torrent " m1 " initSys).2) := by
  have h := c10_strip_normalization
  have h3 := h.2.2 " m1 " "m1" initSys (by decide) (by decide) (by decide)
  exact ⟨h.1 " " (by decide), h.2.1 " " initSys (h.1 " " (by decide)),
    by simpa [initSys] using h3.1, by decide, h3.2⟩

/-- C5: behaviour of the `/cancel` handler.  For an active identifier it
returns the Active-branch outcome (`{"status": "cancelled"}`, the spec's
`removed_from_active`), pops the record and writes no completion record;
cancelling again afterwards returns `not_found` with no change.  For a
pending identifier it removes the first occurrence from the queue with
no engine interaction and returns `removed_from_queue`; again a repeat
returns `not_found`.  For an identifier that is completed or unknown it
is a no-op returning `not_found` -- the completed list is never matched
and never modified. -/
theorem c5_cancel_contract (raw : String) (s : Sys) (hraw : raw ≠ "")
    (hqn : s.queue.Nodup) (han : s.active.Nodup)
    (hdisj : ∀ m ∈ s.queue, m ∉ s.active) :
    (raw ∈ s.active →
      cancel raw s = (.statusCancelled,
        { s with active := s.active.erase raw }) ∧
      cancel raw { s with active := s.active.erase raw } =
        (.notFound, { s with active := s.active.erase raw })) ∧
    (raw ∉ s.active → raw ∈ s.queue →
      cancel raw s = (.removedFromQueue,
        { s with queue := s.queue.erase raw }) ∧
      cancel raw { s with queue := s.queue.erase raw } =
        (.notFound, { s with queue := s.queue.erase raw })) ∧
    (raw ∉ s.active → raw ∉ s.queue → cancel raw s = (.notFound, s)) := by
  refine ⟨?_, ?_, ?_⟩
  · intro hact
    have hnq : raw ∉ s.queue := fun hq => hdisj raw hq hact
    have hne : raw ∉ s.active.erase raw := by
      intro hmem
      exact ((List.Nodup.mem_erase_iff han).1 hmem).1 rfl
    constructor
    · simp [cancel, hraw, hact]
    · simp [cancel, hraw, hne, hnq]
  · intro hnact hq
    have hne : raw ∉ s.queue.erase raw := by
      intro hmem
      exact ((List.Nodup.mem_erase_iff hqn).1 hmem).1 rfl
    constructor
    · simp [cancel, hraw, hnact, hq]
    · simp [cancel, hraw, hnact, hne]
  · intro hnact hnq
    simp [cancel, hraw, hnact, hnq]

/-- Closed instance of C5 on the state `queue=["q"], active=["a"],
completed=[{"c", ...}]`: cancelling the active, the pending, the
completed and an unknown identifier. -/
theorem c5_cancel_contract_witness :
    cancel "a" ⟨["q"], ["a"], [⟨"c", "f.bin", 1, "utc"⟩]⟩ =
      (.statusCancelled, ⟨["q"], [], [⟨"c", "f.bin", 1, "utc"⟩]⟩) ∧
    cancel "q" ⟨["q"], ["a"], [⟨"c", "f.bin", 1, "utc"⟩]⟩ =
      (.removedFromQueue, ⟨[], ["a"], [⟨"c", "f.bin", 1, "utc"⟩]⟩) ∧
    cancel "c" ⟨["q"], ["a"], [⟨"c", "f.bin", 1, "utc"⟩]⟩ =
      (.notFound, ⟨["q"], ["a"], [⟨"c", "f.bin", 1, "utc"⟩]⟩) ∧
    cancel "zz" ⟨["q"], ["a"], [⟨"c", "f.bin", 1, "utc"⟩]⟩ =
      (.notFound, ⟨["q"], ["a"], [⟨"c", "f.bin", 1, "utc"⟩]⟩) := by
  refine ⟨?_, ?_, ?_, ?_⟩
  · have h := (c5_cancel_contract "a" ⟨["q"], ["a"], [⟨"c", "f.bin", 1, "utc"⟩]⟩
      (by decide) (by decide) (by decide) (by decide)).1 (by decide)
    simpa using h.1
  · have h := (c5_cancel_contract "q" ⟨["q"], ["a"], [⟨"c", "f.bin", 1, "utc"⟩]⟩
      (by decide) (by decide) (by decide) (by decide)).2.1 (by decide) (by decide)
    simpa using h.1
  · exact (c5_cancel_contract "c" ⟨["q"], ["a"], [⟨"c", "f.bin", 1, "utc"⟩]⟩
      (by decide) (by decide) (by decide) (by decide)).2.2 (by decide) (by decide)
  · exact (c5_cancel_contract "zz" ⟨["q"], ["a"], [⟨"c", "f.bin", 1, "utc"⟩]⟩
      (by decide) (by decide) (by decide) (by decide)).2.2 (by decide) (by decide)

/-- One evaluation of the peer-timeout logic of the monitoring loop
(app.py lines 143-158), on the state variable `no_peer_start`.  Inputs:
the configured threshold `T` (`PEER_TIMEOUT_SECONDS`, default 120), the
current `no_peer_start`, the current time and the observed peer count.
Returns the new `no_peer_start` and whether the auto-cancel branch
(lines 148-156: best-effort `stop_download`, pop from
`active_downloads`, no completion record) fires. -/
def stallStep (T : Nat) (nps : Option Nat) (now peers : Nat) :
    Option Nat × Bool :=
  if peers = 0 then
    match nps with
    | none => (some now, false)
    | some t0 => if now - t0 > T then (some t0, true) else (some t0, false)
  else (none, false)

/-- The `no_peer_start` state after `i + 1` consecutive zero-peer
observations, polled once per second (the loop's `asyncio.sleep(1)`)
starting at time `t0`. -/
def zeroRun (T t0 : Nat) : Nat → Option Nat × Bool
  | 0 => stallStep T none t0 0
  | i + 1 => stallStep T (zeroRun T t0 i).1 (t0 + i + 1) 0

lemma stallStep_zero_some (T t0 now : Nat) :
    stallStep T (some t0) now 0 =
      if now - t0 > T then (some t0, true) else (some t0, false) := by
  simp [stallStep]

lemma zeroRun_fst (T t0 i : Nat) : (zeroRun T t0 i).1 = some t0 := by
  induction i with
  | zero => simp [zeroRun, stallStep]
  | succ n ih =>
    show (stallStep T (zeroRun T t0 n).1 (t0 + n + 1) 0).1 = some t0
    rw [ih, stallStep_zero_some]
    split <;> rfl

/-- C3: under continuous zero-peer observations polled each second, the
auto-cancel fires exactly at the observations strictly beyond the
threshold -- the first firing is the poll at elapsed time `T + 1`
seconds, i.e. within one monitoring interval of the threshold elapsing,
and never earlier; any observation with a positive peer count resets
`no_peer_start`; and the auto-cancel transition removes the identifier
from the active set while writing no completion record. -/
theorem c3_stall_timeout :
    (∀ T t0 i, (zeroRun T t0 i).2 = true ↔ T < i) ∧
    (∀ T nps now peers, peers ≠ 0 → stallStep T nps now peers = (none, false)) ∧
    (∀ (s : Sys) (m : String) (maxA : Nat), m ∈ s.active → s.active.Nodup →
      Step maxA s { s with active := s.active.erase m } ∧
      m ∉ (Sys.active { s with active := s.active.erase m }) ∧
      Sys.completed { s with active := s.active.erase m } = s.completed) := by
  refine ⟨?_, ?_, ?_⟩
  · intro T t0 i
    cases i with
    | zero => simp [zeroRun, stallStep]
    | succ n =>
      show (stallStep T (zeroRun T t0 n).1 (t0 + n + 1) 0).2 = true ↔ T < n + 1
      rw [zeroRun_fst, stallStep_zero_some]
      have harith : t0 + n + 1 - t0 = n + 1 := by omega
      rw [harith]
      by_cases hT : T < n + 1
      · rw [if_pos hT]
        simp [hT]
      · rw [if_neg hT]
        simp [hT]
  · intro T nps now peers h
    simp [stallStep, h]
  · intro s m maxA hm hnodup
    refine ⟨Step.timeout m s, ?_, rfl⟩
    intro hmem
    exact ((List.Nodup.mem_erase_iff hnodup).1 hmem).1 rfl

/-- Closed instance of C3 with the default 120-second threshold: after
120 seconds of zero peers the job is still alive, at 121 the auto-cancel
fires; a positive peer count resets the timer; the timeout transition on
`active=["m"]` leaves no completion record. -/
theorem c3_stall_timeout_witness :
    ((zeroRun 120 0 120).2 = true ↔ 120 < 120) ∧
    ((zeroRun 120 0 121).2 = true ↔ 120 < 121) ∧
    stallStep 120 (some 0) 60 5 = (none, false) ∧
    (Step 2 ⟨[], ["m"], []⟩ ⟨[], [], []⟩ ∧
      "m" ∉ (Sys.active ⟨[], [], []⟩) ∧
      Sys.completed ⟨[], [], []⟩ = ([] : List CompEntry)) := by
  refine ⟨c3_stall_timeout.1 120 0 120, c3_stall_timeout.1 120 0 121,
    c3_stall_timeout.2.1 120 (some 0) 60 5 (by decide), ?_⟩
  have h := c3_stall_timeout.2.2 ⟨[], ["m"], []⟩ "m" 2 (by simp) (by simp)
  simpa using h

/-- The state change of the whole finish branch plus the supervisor's
stop call, together with the `is_finished` flag exercised on the
concrete scenario; defined from app.py lines 160-199.  (Defined above:
`collectFiles`, `finishJob`.)  C6 (amended): provided every file passing
the recording guard actually exists, the records written are exactly one
per file that exists and resolves strictly inside the destination
directory (`DOWNLOAD_DIR in path.parents`), the loop completes so the
engine stop is reached, and the identifier is removed from Active. -/
theorem c6_finish_records (magnet : String) (fs : List FileInfo) (s : Sys)
    (hwf : ∀ f ∈ fs, f.parentIsDir = true → f.dirInParents = true)
    (hex : ∀ f ∈ fs,
      ((f.pexists && f.dirInParents) || f.parentIsDir) = true →
      f.pexists = true) :
    (collectFiles magnet fs).1 =
      (fs.filter (fun f => f.pexists && f.dirInParents)).map (mkEntry magnet) ∧
    (collectFiles magnet fs).2 = true ∧
    (finishJob magnet fs s).1.completed = s.completed ++
      (fs.filter (fun f => f.pexists && f.dirInParents)).map (mkEntry magnet) ∧
    (finishJob magnet fs s).1.active = s.active.erase magnet ∧
    (finishJob magnet fs s).2 = true := by
  have hmain : (collectFiles magnet fs).1 =
      (fs.filter (fun f => f.pexists && f.dirInParents)).map (mkEntry magnet) ∧
      (collectFiles magnet fs).2 = true := by
    induction fs with
    | nil => simp [collectFiles]
    | cons f rest ih =>
      have hwf' := fun g hg => hwf g (List.mem_cons_of_mem f hg)
      have hex' := fun g hg => hex g (List.mem_cons_of_mem f hg)
      have ihm := ih hwf' hex'
      by_cases hcond : ((f.pexists && f.dirInParents) || f.parentIsDir) = true
      · have hpe : f.pexists = true := hex f (List.mem_cons_self f rest) hcond
        have hdp : f.dirInParents = true := by
          rcases (by simpa using hcond :
              (f.pexists = true ∧ f.dirInParents = true) ∨ f.parentIsDir = true)
            with h1 | h2
          · exact h1.2
          · exact hwf f (List.mem_cons_self f rest) h2
        simp [collectFiles, hcond, hpe, hdp, ihm.1, ihm.2]
      · have hnp : ¬(f.pexists && f.dirInParents) = true := fun h =>
          hcond (by simp [h])
        simp only [collectFiles, if_neg hcond]
        simpa [List.filter_cons, hnp] using ihm
  refine ⟨hmain.1, hmain.2, ?_, rfl, ?_⟩
  · simp [finishJob, hmain.1]
  · simp [finishJob, hmain.2]

/-- Closed instance of C6's scenario: a job with `active=["m"]` finishes
with one file `a.iso` of size 100 directly inside the destination
directory -- a completed record with that name and size appears and the
identifier is gone from Active. -/
theorem c6_finish_records_witness :
    (finishJob "m" [⟨"a.iso", true, true, true, 100⟩]
      ⟨[], ["m"], []⟩).1.completed = [⟨"m", "a.iso", 100, "utc"⟩] ∧
    (finishJob "m" [⟨"a.iso", true, true, true, 100⟩]
      ⟨[], ["m"], []⟩).1.active = ([] : List String) ∧
    (finishJob "m" [⟨"a.iso", true, true, true, 100⟩] ⟨[], ["m"], []⟩).2 = true := by
  have h := c6_finish_records "m" [⟨"a.iso", true, true, true, 100⟩]
    ⟨[], ["m"], []⟩ (by decide) (by decide)
  exact ⟨by simpa using h.2.2.1, by simpa using h.2.2.2.1, h.2.2.2.2⟩

/-- C6 as stated is false on the code.  The recording guard at app.py
line 168 is, by Python operator precedence,
`(path.exists() and DOWNLOAD_DIR in path.parents) or path.parent == DOWNLOAD_DIR`:
a reported file that resolves to a direct child of the destination
directory but does not exist passes the guard, `path.stat()` raises, and
the enumeration aborts -- so a later file that exists and verifiably
resolves strictly inside the directory gets no completed record (and the
engine-stop call at line 196 is never reached). -/
theorem c6_counterexample :
    FileInfo.pexists ⟨"a.iso", true, true, true, 100⟩ = true ∧
    FileInfo.dirInParents ⟨"a.iso", true, true, true, 100⟩ = true ∧
    (collectFiles "m" [⟨"ghost.bin", false, true, true, 0⟩,
      ⟨"a.iso", true, true, true, 100⟩]).1 = [] ∧
    mkEntry "m" ⟨"a.iso", true, true, true, 100⟩ ∉
      (collectFiles "m" [⟨"ghost.bin", false, true, true, 0⟩,
        ⟨"a.iso", true, true, true, 100⟩]).1 ∧
    (collectFiles "m" [⟨"ghost.bin", false, true, true, 0⟩,
      ⟨"a.iso", true, true, true, 100⟩]).2 = false := by
  decide

/-- JSON values, as produced by `json.dumps` / consumed by `json.loads`
(app.py lines 39 and 53).  Only the fragment the state file uses. -/
inductive JVal where
  | jstr (s : String)
  | jnum (n : Nat)
  | jarr (l : List JVal)
  | jobj (l : List (String × JVal))
  deriving Repr

/-- Serialization of one completed record into the state file. -/
def encodeEntry (e : CompEntry) : JVal :=
  .jobj [("magnet", .jstr e.magnet), ("filename", .jstr e.filename),
         ("size", .jnum e.size), ("completed_at", .jstr e.completed_at)]

/-- The payload written by `save_state` (app.py line 51):
`{"queue": list(queue), "completed": completed_files}`. -/
def encodeState (q : List String) (c : List CompEntry) : JVal :=
  .jobj [("queue", .jarr (q.map .jstr)),
         ("completed", .jarr (c.map encodeEntry))]

/-- Python `dict.get(k)` on a decoded JSON object. -/
def jlookup (k : String) : List (String × JVal) → Option JVal
  | [] => none
  | (k2, v) :: rest => if k2 = k then some v else jlookup k rest

def decodeStr : JVal → Option String
  | .jstr s => some s
  | _ => none

def decodeEntry : JVal → Option CompEntry
  | .jobj l =>
    match jlookup "magnet" l, jlookup "filename" l,
        jlookup "size" l, jlookup "completed_at" l with
    | some (.jstr m), some (.jstr f), some (.jnum n), some (.jstr t) =>
        some ⟨m, f, n, t⟩
    | _, _, _, _ => none
  | _ => none

def decodeList (dec : JVal → Option α) : List JVal → Option (List α)
  | [] => some []
  | v :: rest =>
    match dec v, decodeList dec rest with
    | some a, some l => some (a :: l)
    | _, _ => none

/-- Reading the parsed state file back into containers (app.py lines
40-43): `data.get("queue", [])` and `data.get("completed", [])`, with a
missing key defaulting to the empty array.  Any shape mismatch is the
model of the Python-level error caught by the `except` at line 45. -/
def decodeState : JVal → Option (List String × List CompEntry)
  | .jobj l =>
    match (jlookup "queue" l).getD (.jarr []),
        (jlookup "completed" l).getD (.jarr []) with
    | .jarr qs, .jarr cs =>
      match decodeList decodeStr qs, decodeList decodeEntry cs with
      | some q, some c => some (q, c)
      | _, _ => none
    | _, _ => none
  | _ => none

/-- The durable state file as `load_state` can find it: absent, present
but not parseable as JSON (`json.loads` raises), or parsed to a value. -/
inductive DiskFile where
  | missing
  | corrupt
  | jsonVal (v : JVal)
  deriving Repr

/-- `load_state` (app.py lines 35-46): a missing file leaves the initial
empty containers; a parse error or shape error is caught and logged,
also leaving the empty containers; otherwise the decoded queue and
completed list are installed. -/
def load_state : DiskFile → List String × List CompEntry
  | .missing => ([], [])
  | .corrupt => ([], [])
  | .jsonVal v => (decodeState v).getD ([], [])

/-- The two files `save_state` touches: `state.tmp` and `state.json`. -/
structure Disk where
  tmp : DiskFile
  durable : DiskFile
  deriving Repr

/-- `save_state` (app.py lines 48-56): write the serialized payload to
the temporary path, then atomically rename it over the durable path
(`tmp.replace(STATE_FILE)`).  Returns the disk after each of the two
steps; the durable file is only ever the old value or the complete new
payload, never a partial write. -/
def save_state (d : Disk) (q : List String) (c : List CompEntry) :
    Disk × Disk :=
  let d1 : Disk := { d with tmp := .jsonVal (encodeState q c) }
  let d2 : Disk := { d1 with durable := d1.tmp }
  (d1, d2)

lemma decodeList_map_jstr (q : List String) :
    decodeList decodeStr (q.map JVal.jstr) = some q := by
  induction q with
  | nil => rfl
  | cons a rest ih => simp [decodeList, decodeStr, ih]

lemma decodeEntry_encodeEntry (e : CompEntry) :
    decodeEntry (encodeEntry e) = some e := by
  cases e
  rfl

lemma decodeList_map_encodeEntry (c : List CompEntry) :
    decodeList decodeEntry (c.map encodeEntry) = some c := by
  induction c with
  | nil => rfl
  | cons e rest ih => simp [decodeList, decodeEntry_encodeEntry, ih]

/-- C7: Save followed by Load is the identity on
`{pending, completed}`; the durable file after the temporary-write step
still holds its old content and after the rename holds exactly the new
payload (never a half-written value); and Load of a missing or corrupt
state file yields empty containers (the exception is caught, not
propagated). -/
theorem c7_state_store :
    (∀ q c, load_state (.jsonVal (encodeState q c)) = (q, c)) ∧
    (∀ d q c, load_state (save_state d q c).2.durable = (q, c)) ∧
    (∀ d q c, (save_state d q c).1.durable = d.durable ∧
      (save_state d q c).2.durable = .jsonVal (encodeState q c)) ∧
    load_state .missing = ([], []) ∧
    load_state .corrupt = ([], []) := by
  have hload : ∀ q c, load_state (.jsonVal (encodeState q c)) = (q, c) := by
    intro q c
    simp [load_state, decodeState, encodeState, jlookup,
      decodeList_map_jstr, decodeList_map_encodeEntry]
  exact ⟨hload, fun d q c => hload q c, fun d q c => ⟨rfl, rfl⟩, rfl, rfl⟩

/-- The engine status snapshot, with the fields the monitoring loop
reads via `getattr` with defaults (app.py lines 127-141) plus the fields
the spec's engine contract lists (`total_size` is never read by the
code).  `eta` is whatever the engine exposes, `none` when the attribute
is absent (`getattr(st, "eta", None)`). -/
structure EngineStatus where
  name : Option String
  is_downloading : Bool
  is_finished : Bool
  num_peers : Nat
  progress : Rat
  download_rate : Nat
  total_size : Option Nat
  eta : Option Int
  deriving Repr, DecidableEq

/-- Python's `round(x, 2)` (banker's rounding at two decimals), used at
app.py lines 137 and 268. -/
def pyRound2 (q : Rat) : Rat :=
  let n : Int := ⌊q * 100⌋
  let r : Rat := q * 100 - n
  let k : Int :=
    if r > 1 / 2 then n + 1
    else if r < 1 / 2 then n
    else if n % 2 = 0 then n else n + 1
  (k : Rat) / 100

/-- The live metadata written into `active_downloads[magnet]` each poll
(app.py lines 135-141). -/
structure ActiveMeta where
  status : String
  progress : Rat
  download_speed_bps : Nat
  peers : Nat
  eta : Option Int
  deriving Repr, DecidableEq

/-- app.py lines 135-141: the dashboard metadata update.  The `eta`
field is `getattr(st, "eta", None)` -- the engine's value verbatim, no
arithmetic. -/
def updateMeta (st : EngineStatus) : ActiveMeta :=
  { status :=
      if st.is_downloading then "Downloading"
      else if st.is_finished then "Finished" else "Connecting",
    progress := pyRound2 st.progress,
    download_speed_bps := st.download_rate,
    peers := st.num_peers,
    eta := st.eta }

/-- One active entry of the `/status` response (app.py lines 264-274). -/
structure StatusEntry where
  magnet : String
  name : Option String
  progress : Rat
  peers : Nat
  download_speed_bps : Nat
  eta : Option Int
  is_downloading : Bool
  is_finished : Bool
  deriving Repr, DecidableEq

/-- app.py lines 264-274: building one `/status` entry from a non-null
engine snapshot; `eta` is again `getattr(st, "eta", None)` verbatim. -/
def statusEntry (magnet : String) (st : EngineStatus) : StatusEntry :=
  { magnet := magnet, name := st.name, progress := pyRound2 st.progress,
    peers := st.num_peers, download_speed_bps := st.download_rate,
    eta := st.eta, is_downloading := st.is_downloading,
    is_finished := st.is_finished }

/-- Modelled from the spec's words (§4.2 ETA formula), for comparison
with the code: `eta = (total_size * (1 - progress/100)) / rate` in whole
seconds when rate > 0 and progress < 100, non-numeric otherwise. -/
def specEta (total_size : Option Nat) (progress : Rat) (rate : Nat) :
    Option Int :=
  match total_size with
  | none => none
  | some sz =>
    if 0 < rate ∧ progress < 100 then
      some ⌊((sz : Rat) * (1 - progress / 100)) / (rate : Rat)⌋
    else none

/-- C8 as stated is false on the code: the code computes no ETA at all.
At an engine snapshot with rate 5 B/s, progress 50%, total size 1000 B
and an engine-supplied `eta` attribute of 7, the reported ETA is 7 --
the engine's value verbatim -- while the claimed formula yields 100. -/
theorem c8_counterexample :
    (0 : Nat) <
      (EngineStatus.download_rate ⟨none, true, false, 3, 50, 5, some 1000, some 7⟩) ∧
    (EngineStatus.progress ⟨none, true, false, 3, 50, 5, some 1000, some 7⟩) < 100 ∧
    (updateMeta ⟨none, true, false, 3, 50, 5, some 1000, some 7⟩).eta = some 7 ∧
    specEta (some 1000) 50 5 = some 100 ∧
    some (7 : Int) ≠ some (100 : Int) := by
  refine ⟨by norm_num, by norm_num, rfl, ?_, by decide⟩
  have hval : ((1000 : Rat) * (1 - 50 / 100)) / (5 : Rat) = 100 := by norm_num
  simp only [specEta, Nat.cast_ofNat, hval]
  norm_num

/-- C8 (amended): both the monitoring-loop metadata and the `/status`
entry report the engine-supplied `eta` field verbatim (`None` when the
engine omits it); the code performs no ETA arithmetic, so it divides by
nothing and reports no computed duration at all. -/
theorem c8_eta_forwarded (st : EngineStatus) (m : String) :
    (updateMeta st).eta = st.eta ∧
    (statusEntry m st).eta = st.eta ∧
    (updateMeta st).progress = pyRound2 st.progress ∧
    (statusEntry m st).download_speed_bps = st.download_rate :=
  ⟨rfl, rfl, rfl, rfl⟩

/-- Resolved-path facts about one `/file/{filename}` request, as the
code observes them after `fname = Path(filename).name` and
`path = (DOWNLOAD_DIR / fname).resolve()` (app.py lines 328-329):
`path.exists()`, `path.is_file()`, `DOWNLOAD_DIR in path.parents`
(destination directory is a strict ancestor of the resolved path, e.g.
through a symlink into a subdirectory), `path.parent == DOWNLOAD_DIR`
(direct child). -/
structure ReqPath where
  pexists : Bool
  is_file : Bool
  dirInParents : Bool
  parentIsDir : Bool
  deriving Repr, DecidableEq

inductive FetchResult where
  | notFound
  | forbidden
  | served
  deriving Repr, DecidableEq

/-- The `/file/{filename}` handler (app.py lines 325-335): 404 unless
the resolved path exists and is a regular file; 403 unless the
destination directory contains it (`DOWNLOAD_DIR in path.parents or
path.parent == DOWNLOAD_DIR`); otherwise the file is served. -/
def download_file (r : ReqPath) : FetchResult :=
  if !r.pexists || !r.is_file then .notFound
  else if !r.dirInParents && !r.parentIsDir then .forbidden
  else .served

/-- C9: `/file/{filename}` serves a file exactly when the resolved path
exists, is a regular file and lies strictly inside the destination
directory; any resolved path outside the directory is answered with 404
or 403, never served. -/
theorem c9_path_containment (r : ReqPath)
    (hwf : r.parentIsDir = true → r.dirInParents = true) :
    (download_file r = .served ↔
      (r.pexists = true ∧ r.is_file = true ∧ r.dirInParents = true)) ∧
    (r.dirInParents = false →
      download_file r = .notFound ∨ download_file r = .forbidden) := by
  obtain ⟨pe, fi, dp, pd⟩ := r
  revert hwf
  cases pe <;> cases fi <;> cases dp <;> cases pd <;> decide

/-- Closed instance of C9: an existing regular file resolving outside
the destination directory is rejected, and one directly inside is
served. -/
theorem c9_path_containment_witness :
    (download_file ⟨true, true, false, false⟩ = .notFound ∨
      download_file ⟨true, true, false, false⟩ = .forbidden) ∧
    download_file ⟨true, true, true, true⟩ = .served :=
  ⟨(c9_path_containment ⟨true, true, false, false⟩ (by decide)).2 rfl,
   (c9_path_containment ⟨true, true, true, true⟩ (by decide)).1.2
     ⟨rfl, rfl, rfl⟩⟩

end TorrentApp
